import Mathlib

/-!
Shallow embedding of the SkillGenome X analytics core
(backend/app/services: bot_filter.py, graph_build.py, clustering.py,
forecasting.py) together with proofs of the behavioural claims about it.

Modelling conventions used throughout:
* pandas DataFrames become a list of fully-typed rows plus the list of
  column names actually present (the sources test membership in
  `df.columns` dynamically);
* timestamps are integers counting minutes from a fixed week boundary
  (a Sunday 00:00), so the weekly bins produced by
  `resample("W", label="left")` have their edges at multiples of 10080;
* Python floats are modelled by `ℚ`; `round(x, n)` is modelled with
  Mathlib's `round` at the same decimal position;
* text helpers (`str.strip`, `str.split`, `str.lower`, whitespace
  collapsing) are implemented structurally over `List Char` with the
  code-point semantics Python uses, so that concrete runs reduce in the
  kernel.
-/

set_option maxRecDepth 20000

namespace SkillGenome

/-- Code-point lexicographic comparison of character lists, the order Python
uses when comparing strings. -/
def lexLt : List Char → List Char → Bool
  | _, [] => false
  | [], _ :: _ => true
  | a :: as, b :: bs =>
      decide (a.toNat < b.toNat) || (decide (a.toNat = b.toNat) && lexLt as bs)

/-- Non-strict code-point order on strings (used to model Python `sorted`). -/
def strLe (a b : String) : Prop := lexLt b.data a.data = false

instance : DecidableRel strLe :=
  fun a b => inferInstanceAs (Decidable (lexLt b.data a.data = false))

/-- Strict code-point order on strings. -/
def strLt (a b : String) : Prop := lexLt a.data b.data = true

/-- Whitespace trimming at both ends, modelling Python `str.strip()`. -/
def trimChars (cs : List Char) : List Char :=
  ((cs.dropWhile Char.isWhitespace).reverse.dropWhile Char.isWhitespace).reverse

/-- String-level trim, modelling Python `str.strip()` / `skill.strip()`. -/
def trimStr (s : String) : String := String.mk (trimChars s.data)

/-- Split a character list at every occurrence of `sep`, modelling Python
`str.split(sep)`: an empty input yields one empty field, separators at the
ends yield empty fields. -/
def splitChars (sep : Char) : List Char → List (List Char)
  | [] => [[]]
  | c :: rest =>
      if c = sep then
        [] :: splitChars sep rest
      else
        match splitChars sep rest with
        | [] => [[c]]
        | w :: ws => (c :: w) :: ws

/-- Split a character list at every character satisfying `p` (used with
whitespace to model the regex `\s+` field splitting). -/
def splitWhen (p : Char → Bool) : List Char → List (List Char)
  | [] => [[]]
  | c :: rest =>
      if p c then
        [] :: splitWhen p rest
      else
        match splitWhen p rest with
        | [] => [[c]]
        | w :: ws => (c :: w) :: ws

/-- Join words with a single space. -/
def joinSpace : List (List Char) → List Char
  | [] => []
  | [w] => w
  | w :: ws => w ++ ' ' :: joinSpace ws

/-- Shared tag-parsing pattern of graph_build.py line 26, clustering.py
lines 23-26 and forecasting.py line 30: split the semicolon-delimited
string, trim every entry and drop the entries that are empty after
trimming. -/
def splitTags (s : String) : List String :=
  ((splitChars ';' s.data).map (fun cs => String.mk (trimChars cs))).filter
    (fun t => t ≠ "")

/-- Text normalization of bot_filter.py `_normalize_text`: lowercase, strip,
and collapse internal whitespace runs to a single space. -/
def normText (s : String) : String :=
  String.mk (joinSpace
    ((splitWhen Char.isWhitespace (s.data.map Char.toLower)).filter
      (fun w => w ≠ [])))

/-- One activity record, with the fields ingestion guarantees
(ingest.py REQUIRED_COLUMNS).  `skill_tags` is optional because the
services guard against missing values (`dropna` / `pd.isna`).  The
timestamp is in minutes from a fixed Sunday-00:00 epoch. -/
structure Record where
  user_id : String
  region : String
  timestamp : Int
  source : String
  raw_text : String
  skill_tags : Option String
  engagement : Int
deriving DecidableEq, Repr

/-- A DataFrame: the rows plus the list of column names present (the
services test membership in `df.columns` dynamically). -/
structure DataFrame where
  cols : List String
  rows : List Record
deriving DecidableEq, Repr

/-- Names of the seven ingested columns. -/
def allCols : List String :=
  ["user_id", "region", "timestamp", "source", "raw_text", "skill_tags",
   "engagement"]

/-- Configuration attributes read by apply_bot_filter (config.py). -/
structure BotConfig where
  BOT_POSTS_PER_DAY_THRESHOLD : ℚ
  BOT_DUPLICATE_TEXT_THRESHOLD : ℚ

/-- Default thresholds of config.py: 40 posts per day, 0.75 duplicate
ratio. -/
def defaultBotConfig : BotConfig := ⟨40, 3 / 4⟩

/-- Rounding to two decimal places, modelling `round(x, 2)`. -/
def round2 (q : ℚ) : ℚ := (round (q * 100) : ℤ) / 100

/-- Rounding to one decimal place, modelling `round(x, 1)`. -/
def round1 (q : ℚ) : ℚ := (round (q * 10) : ℤ) / 10

/-- Rows of a single user (the groupby("user_id") group). -/
def userRows (rows : List Record) (u : String) : List Record :=
  rows.filter (fun r => r.user_id = u)

/-- Calendar day of a timestamp: `ts.dt.floor("D")` with minutes-based
timestamps. -/
def dayOf (t : Int) : Int := t.fdiv 1440

/-- Total record count of a user (bot_filter.py line 78). -/
def total_posts (rows : List Record) (u : String) : ℕ :=
  (userRows rows u).length

/-- Distinct active days of a user, clipped below at 1
(bot_filter.py line 79). -/
def active_days (rows : List Record) (u : String) : ℕ :=
  max (((userRows rows u).map (fun r => dayOf r.timestamp)).dedup.length) 1

/-- Posts per day metric (bot_filter.py line 80). -/
def posts_per_day (rows : List Record) (u : String) : ℚ :=
  (total_posts rows u : ℚ) / (active_days rows u : ℚ)

/-- Distinct normalized texts of a user (bot_filter.py line 82). -/
def unique_texts (rows : List Record) (u : String) : ℕ :=
  ((userRows rows u).map (fun r => normText r.raw_text)).dedup.length

/-- Duplicate text ratio, denominator clipped below at 1
(bot_filter.py line 83). -/
def duplicate_text_ratio (rows : List Record) (u : String) : ℚ :=
  1 - (unique_texts rows u : ℚ) / ((max (total_posts rows u) 1 : ℕ) : ℚ)

/-- Bot decision of bot_filter.py lines 99-101: either metric strictly
exceeds its threshold. -/
def isBot (rows : List Record) (cfg : BotConfig) (u : String) : Bool :=
  decide (cfg.BOT_POSTS_PER_DAY_THRESHOLD < posts_per_day rows u) ||
    decide (cfg.BOT_DUPLICATE_TEXT_THRESHOLD < duplicate_text_ratio rows u)

/-- One output row of the bot filter: the original record plus the columns
added by apply_bot_filter (posts_per_day, duplicate_text_ratio, is_bot,
trust_score). -/
structure BotRow where
  record : Record
  posts_per_day : ℚ
  duplicate_text_ratio : ℚ
  is_bot : Bool
  trust_score : ℚ

/-- Removal statistics returned by apply_bot_filter. -/
structure BotStats where
  total_users : ℕ
  bots_detected : ℕ
  percent_removed : ℚ

/-- Result of apply_bot_filter: the cleaned rows and the statistics. -/
structure BotOutput where
  cleaned : List BotRow
  stats : BotStats

/-- The four columns apply_bot_filter requires (bot_filter.py line 56). -/
def requiredCols : List String :=
  ["user_id", "timestamp", "raw_text", "engagement"]

/-- Required columns absent from the frame (bot_filter.py line 57). -/
def missingCols (df : DataFrame) : List String :=
  requiredCols.filter (fun c => c ∉ df.cols)

/-- Per-row annotation step of apply_bot_filter lines 93-104: map the
per-user metrics back to the row and attach the decision and trust
score (0.2 for bots, 1.0 otherwise). -/
def annotate (rows : List Record) (cfg : BotConfig) (r : Record) : BotRow :=
  { record := r
    posts_per_day := posts_per_day rows r.user_id
    duplicate_text_ratio := duplicate_text_ratio rows r.user_id
    is_bot := isBot rows cfg r.user_id
    trust_score := if isBot rows cfg r.user_id then 1 / 5 else 1 }

/-- Embedding of bot_filter.apply_bot_filter: raise on missing required
columns, annotate every row, drop the rows of flagged users, and report
user-level statistics.  The `ValueError` raised on a missing column (the
SchemaError of the design) is modelled by the `Except` error case. -/
def apply_bot_filter (df : DataFrame) (cfg : BotConfig) :
    Except String BotOutput :=
  if missingCols df ≠ [] then
    Except.error "Missing required columns"
  else
    let annotated := df.rows.map (annotate df.rows cfg)
    let total_users := (df.rows.map Record.user_id).dedup.length
    let bots_detected :=
      ((annotated.filter (fun r => r.is_bot)).map
        (fun r => r.record.user_id)).dedup.length
    let percent :=
      if total_users = 0 then 0
      else 100 * (bots_detected : ℚ) / (total_users : ℚ)
    Except.ok
      { cleaned := annotated.filter (fun r => r.is_bot = false)
        stats :=
          { total_users := total_users
            bots_detected := bots_detected
            percent_removed := round2 percent } }

/-- Deduplicated, sorted skill list of one tag string: `sorted(set(skills))`
of graph_build.py line 27 (dedup first, then code-point sort). -/
def tagSet (s : String) : List String :=
  List.insertionSort strLe (splitTags s).dedup

/-- Deduplicated, sorted skill list of a record, empty when the tags value
is missing (`dropna` of graph_build.py line 25). -/
def tagsOfR (r : Record) : List String :=
  match r.skill_tags with
  | none => []
  | some s => tagSet s

/-- All ordered-position pairs of a list, in the order produced by
itertools.combinations (graph_build.py line 28). -/
def pairsOf {α : Type} : List α → List (α × α)
  | [] => []
  | a :: l => (l.map (fun b => (a, b))) ++ pairsOf l

/-- Unordered skill pairs one record contributes (graph_build.py
lines 26-28): all combinations of its deduplicated sorted skill set. -/
def recordPairs (r : Record) : List (String × String) :=
  pairsOf (tagsOfR r)

/-- Increment a Counter entry, inserting it with count 1 when absent
(`pair_counts[(a, b)] += 1`). -/
def bumpPair (c : List ((String × String) × ℕ)) (p : String × String) :
    List ((String × String) × ℕ) :=
  match c with
  | [] => [(p, 1)]
  | (q, n) :: rest =>
      if q = p then (q, n + 1) :: rest else (q, n) :: bumpPair rest p

/-- The Counter accumulation loop of graph_build.py lines 23-29, started
from an arbitrary accumulator. -/
def pairCountsFrom (c : List ((String × String) × ℕ)) (rows : List Record) :
    List ((String × String) × ℕ) :=
  rows.foldl (fun acc r => (recordPairs r).foldl bumpPair acc) c

/-- The accumulated pair counter of graph_build.py lines 23-29; its entries
are exactly the weighted edges the networkx graph receives on lines 31-33
(distinct keys, one add_edge per key). -/
def pair_counts (rows : List Record) : List ((String × String) × ℕ) :=
  pairCountsFrom [] rows

/-- Count held by a Counter association list for a given key (0 when the
key is absent). -/
def cntOf (c : List ((String × String) × ℕ)) (p : String × String) : ℕ :=
  match c with
  | [] => 0
  | (q, n) :: rest => if q = p then n else cntOf rest p

/-- Degree of a skill in the co-occurrence graph: the number of edges (and
hence of distinct partners, since every edge key is strictly ordered)
incident to it. -/
def degreeIn (pc : List ((String × String) × ℕ)) (s : String) : ℕ :=
  pc.countP (fun e => e.1.1 = s || e.1.2 = s)

/-- First-occurrence deduplication (node insertion order of the networkx
graph). -/
def firstDedupAux (seen : List String) : List String → List String
  | [] => []
  | a :: l =>
      if a ∈ seen then firstDedupAux seen l
      else a :: firstDedupAux (a :: seen) l

/-- Graph nodes in insertion order: endpoints of the edges as first
encountered. -/
def nodesOf (pc : List ((String × String) × ℕ)) : List String :=
  firstDedupAux [] (pc.flatMap (fun e => [e.1.1, e.1.2]))

/-- Number of records in whose deduplicated trimmed tag list both skills
appear: the co-occurrence count the specification attributes to an edge. -/
def coCount (rows : List Record) (a b : String) : ℕ :=
  rows.countP (fun r => decide (a ∈ tagsOfR r) && decide (b ∈ tagsOfR r))

/-- Result of build_skill_graph: the weighted edge list (the graph), the
top-10 skills by degree and the top-10 pairs by weight. -/
structure SkillGraphOutput where
  edges : List ((String × String) × ℕ)
  top_skills : List (String × ℕ)
  top_pairs : List ((String × String) × ℕ)

/-- Embedding of graph_build.build_skill_graph: accumulate the pair
counter, build the weighted graph from it, and rank skills by degree and
pairs by weight descending (stable sort, mirroring Python's stable
`sorted` with a negated key). -/
def build_skill_graph (df : DataFrame) : SkillGraphOutput :=
  let pc := pair_counts df.rows
  let nodes := nodesOf pc
  { edges := pc
    top_skills :=
      (List.insertionSort (fun x y : String × ℕ => y.2 ≤ x.2)
        (nodes.map (fun s => (s, degreeIn pc s)))).take 10
    top_pairs :=
      (List.insertionSort (fun x y : (String × String) × ℕ => y.2 ≤ x.2)
        pc).take 10 }

/-- Usable skill tags of a record for clustering: rows with a missing
value are dropped (clustering.py line 22), the split entries are trimmed
and empty entries discarded (lines 23-26). -/
def usableTags (r : Record) : List String :=
  match r.skill_tags with
  | none => []
  | some s => splitTags s

/-- The exploded (region, skill) pairs of clustering.py lines 22-26, one
pair per tag occurrence. -/
def expOf (df : DataFrame) : List (String × String) :=
  df.rows.flatMap (fun r => (usableTags r).map (fun t => (r.region, t)))

/-- Sorted distinct values, modelling a sorted pandas groupby index. -/
def sortedDedup (l : List String) : List String :=
  List.insertionSort strLe l.dedup

/-- Row index of the region-by-skill frequency matrix: the distinct regions
with at least one usable tag, sorted (pandas groupby sorts its keys). -/
def regionsOf (df : DataFrame) : List String :=
  sortedDedup ((expOf df).map Prod.fst)

/-- Column index of the frequency matrix: the distinct skills, sorted. -/
def skillsOf (df : DataFrame) : List String :=
  sortedDedup ((expOf df).map Prod.snd)

/-- The region-by-skill frequency matrix of clustering.py line 32:
`groupby(["region", "skill"]).size().unstack(fill_value=0)` — entry =
number of (region, skill) occurrences, zero-filled. -/
def matOf (df : DataFrame) : List (List ℕ) :=
  (regionsOf df).map (fun g => (skillsOf df).map (fun s => (expOf df).count (g, s)))

/-- Effective cluster count of clustering.py line 35: the requested count
capped at the number of matrix rows. -/
def kOf (df : DataFrame) (n_clusters : ℕ) : ℕ :=
  min n_clusters (regionsOf df).length

/-- Top-5 skills of one cluster (clustering.py lines 43-49): sum the skill
counts over the member regions, take the 5 largest (stable descending
sort, matching pandas nlargest), and drop zero totals. -/
def clusterTop (df : DataFrame) (labels : List ℕ) (c : ℕ) : List String :=
  let members :=
    (((regionsOf df).zip labels).filter (fun rl => rl.2 = c)).map Prod.fst
  let sums :=
    (skillsOf df).map (fun s => (members.map (fun g => (expOf df).count (g, s))).sum)
  ((((List.insertionSort (fun x y : String × ℕ => y.2 ≤ x.2)
      ((skillsOf df).zip sums)).take 5).filter (fun x => 0 < x.2)).map Prod.fst)

/-- One output entry of cluster_regions. -/
structure RegionOut where
  region : String
  cluster_id : ℕ
  top_skills : List String
deriving DecidableEq, Repr

/-- Embedding of clustering.cluster_regions.  The sklearn KMeans call is
the one external collaborator of the analytics core; it is passed in as
the `fit_predict` argument (matrix and cluster count to labels), with its
documented contract — one label per row, labels in `[0, k)` — assumed as
hypotheses where needed.  Everything else follows the source: early
returns for an empty frame, missing columns or no usable tags, the
capped cluster count, and one output entry per matrix row. -/
def cluster_regions (df : DataFrame) (n_clusters : ℕ)
    (fit_predict : List (List ℕ) → ℕ → List ℕ) : List RegionOut :=
  if df.rows = [] ∨ "region" ∉ df.cols ∨ "skill_tags" ∉ df.cols then []
  else if expOf df = [] then []
  else
    let k := kOf df n_clusters
    let labels := fit_predict (matOf df) k
    ((regionsOf df).zip labels).map
      (fun rl => ⟨rl.1, rl.2, clusterTop df labels rl.2⟩)

/-- Minutes in one week; the weekly bin edges sit at multiples of this
offset from the Sunday-00:00 epoch. -/
def weekMinutes : Int := 10080

/-- Index of the weekly bin a timestamp falls in under
`resample("W", label="left")`: pandas weekly bins are right-closed at the
week boundary, so bin `k` covers `(weekMinutes*(k-1), weekMinutes*k]`. -/
def binIdx (t : Int) : Int := (t - 1).fdiv weekMinutes + 1

/-- Label of a timestamp's weekly bin: with `label="left"` pandas labels
each bin with its left edge. -/
def binLabel (t : Int) : Int := weekMinutes * (binIdx t - 1)

/-- Membership test of forecasting.py lines 27-30: the trimmed target
skill appears exactly among the trimmed nonempty tag entries. -/
def hasSkill (tags : Option String) (sk : String) : Bool :=
  match tags with
  | none => false
  | some s => decide (sk ∈ splitTags s)

/-- Rows matching the target skill (forecasting.py lines 32-33), with the
target trimmed first (line 22). -/
def filteredOf (df : DataFrame) (skill : String) : List Record :=
  df.rows.filter (fun r => hasSkill r.skill_tags (trimStr skill))

/-- Consecutive weekly bin indices from the earliest to the latest
occupied bin: the dense bin range `resample` generates. -/
def weeksOf (ts : List Int) : List Int :=
  match ts.map binIdx with
  | [] => []
  | k :: ks =>
      let lo := ks.foldl min k
      let hi := ks.foldl max k
      (List.range (hi + 1 - lo).toNat).map (fun i : ℕ => lo + (i : ℤ))

/-- The weekly series of forecasting.py lines 38-43: one (left-edge label,
count) point per week in the observed span, zero-filled. -/
def weeklyOf (df : DataFrame) (skill : String) : List (Int × ℕ) :=
  let ts := (filteredOf df skill).map Record.timestamp
  (weeksOf ts).map
    (fun k => (weekMinutes * (k - 1), ts.countP (fun t => binIdx t = k)))

/-- Observed weekly counts as rationals (forecasting.py line 56). -/
def countsOf (df : DataFrame) (skill : String) : List ℚ :=
  (weeklyOf df skill).map (fun e => (e.2 : ℚ))

/-- Least-squares straight-line fit of the counts against the indices
0, 1, 2, …, the regression `np.polyfit(x, y, 1)` computes: returns
(slope, intercept). -/
def linfit (ys : List ℚ) : ℚ × ℚ :=
  let n : ℚ := (ys.length : ℚ)
  let xs : List ℚ := (List.range ys.length).map (fun i => (i : ℚ))
  let sx := xs.sum
  let sy := ys.sum
  let sxx := (xs.map (fun x => x * x)).sum
  let sxy := ((xs.zip ys).map (fun p => p.1 * p.2)).sum
  let slope := (n * sxy - sx * sy) / (n * sxx - sx * sx)
  (slope, (sy - slope * sx) / n)

/-- Fitted slope for the target skill (forecasting.py line 57). -/
def slopeOf (df : DataFrame) (skill : String) : ℚ :=
  (linfit (countsOf df skill)).1

/-- Fitted intercept for the target skill (forecasting.py line 57). -/
def interceptOf (df : DataFrame) (skill : String) : ℚ :=
  (linfit (countsOf df skill)).2

/-- Arithmetic mean of the observed counts (forecasting.py line 58). -/
def meanOf (df : DataFrame) (skill : String) : ℚ :=
  (countsOf df skill).sum / ((countsOf df skill).length : ℚ)

/-- Slope threshold of forecasting.py line 59. -/
def thrOf (df : DataFrame) (skill : String) : ℚ :=
  max (1 / 10) (meanOf df skill * (2 / 100))

/-- Label of the last observed week (forecasting.py line 71). -/
def lastLabelOf (df : DataFrame) (skill : String) : Int :=
  ((weeklyOf df skill).map Prod.fst).getLastD 0

/-- One historical point (week label, integer count). -/
structure HistPoint where
  week : Int
  count : ℕ
deriving DecidableEq, Repr

/-- One forecast point (week label, non-negative predicted count). -/
structure ForePoint where
  week : Int
  predicted_count : ℚ
deriving DecidableEq, Repr

/-- Result of forecast_skill. -/
structure ForecastResult where
  historical : List HistPoint
  forecast : List ForePoint
  trend : String
deriving DecidableEq, Repr

/-- The neutral result of forecasting.py `_empty_result`. -/
def emptyResult : ForecastResult := ⟨[], [], "stable"⟩

/-- Embedding of forecasting.forecast_skill: guard cases, weekly
resampling, linear trend classification, and extrapolation with
`max(0, round(slope * (last_index + i) + intercept, 1))`, one point per
week after the last observed week. -/
def forecast_skill (df : DataFrame) (skill : String) (horizon_weeks : ℕ) :
    ForecastResult :=
  if df.rows = [] ∨ "timestamp" ∉ df.cols ∨ "skill_tags" ∉ df.cols then
    emptyResult
  else if trimStr skill = "" then emptyResult
  else if filteredOf df skill = [] then emptyResult
  else
    let weekly := weeklyOf df skill
    let hist := weekly.map (fun e => HistPoint.mk e.1 e.2)
    if weekly.length < 2 then ⟨hist, [], "stable"⟩
    else
      let sl := slopeOf df skill
      let ic := interceptOf df skill
      let thr := thrOf df skill
      let trend :=
        if thr < sl then "rising"
        else if sl < -thr then "declining"
        else "stable"
      let fore := (List.range horizon_weeks).map (fun j =>
        let px : ℕ := weekly.length - 1 + (j + 1)
        ForePoint.mk (lastLabelOf df skill + weekMinutes * ((j : ℤ) + 1))
          (max 0 (round1 (sl * (px : ℚ) + ic))))
      ⟨hist, fore, trend⟩

/-- Caller-state form of apply_bot_filter.  The source rebinds its local
name to `df.copy()` (bot_filter.py line 61) before any column assignment
or in-place drop, so every write lands on the copy; the frame the caller
passed in is returned unchanged next to the result. -/
def apply_bot_filter_frame (df : DataFrame) (cfg : BotConfig) :
    DataFrame × Except String BotOutput :=
  (df, apply_bot_filter df cfg)

/-- Caller-state form of build_skill_graph: the source only reads
`df["skill_tags"]` (graph_build.py line 25) and never writes to the
frame. -/
def build_skill_graph_frame (df : DataFrame) :
    DataFrame × SkillGraphOutput :=
  (df, build_skill_graph df)

/-- Caller-state form of cluster_regions: the source copies its column
selection (`.copy()` on clustering.py line 22) and mutates only the
copy. -/
def cluster_regions_frame (df : DataFrame) (n_clusters : ℕ)
    (fit_predict : List (List ℕ) → ℕ → List ℕ) :
    DataFrame × List RegionOut :=
  (df, cluster_regions df n_clusters fit_predict)

/-- Caller-state form of forecast_skill: the source copies the filtered
selection (`.copy()` on forecasting.py line 33) and assigns only into the
copy. -/
def forecast_skill_frame (df : DataFrame) (skill : String)
    (horizon_weeks : ℕ) : DataFrame × ForecastResult :=
  (df, forecast_skill df skill horizon_weeks)

/-- Record constructor helper for the concrete examples. -/
def mkR (u g : String) (t : Int) (txt : String) (tags : Option String) :
    Record :=
  ⟨u, g, t, "csv", txt, tags, 1⟩

/-- The three-record example of the Bot Detector specification: one user,
three records on the same calendar day, identical text. -/
def exampleRowsC1 : List Record :=
  [mkR "userA" "R1" 100 "hi hi hi" (some "Python"),
   mkR "userA" "R1" 200 "hi hi hi" (some "Python"),
   mkR "userA" "R1" 300 "hi hi hi" (some "Python")]

/-- The example rows as a full frame (all ingested columns present). -/
def exampleDF1 : DataFrame := ⟨allCols, exampleRowsC1⟩

/-- The two-record example of the Skill Graph specification: tag strings
"Python;SQL" and "SQL;Python". -/
def exampleDF2 : DataFrame :=
  ⟨allCols,
   [mkR "u1" "R1" 100 "a" (some "Python;SQL"),
    mkR "u2" "R1" 200 "b" (some "SQL;Python")]⟩

/-- Clustering counterexample input: region "A" has a usable tag, region
"B" appears in the input but its only record has an empty tag string. -/
def exampleDF3 : DataFrame :=
  ⟨allCols,
   [mkR "u1" "A" 100 "a" (some "x"),
    mkR "u2" "B" 200 "b" (some "")]⟩

/-- A concrete stand-in for the external clusterer satisfying the sklearn
fit_predict contract when `0 < k`: one label per row, all labels 0. -/
def fitZero (m : List (List ℕ)) (_k : ℕ) : List ℕ :=
  m.map (fun _ => 0)

/-- Forecasting example frame: 10 records in the first observed week, 20
in the second, 30 in the third, all tagged "Python" (weekly counts
[10, 20, 30]). -/
def exampleDF4 : DataFrame :=
  ⟨allCols,
   (List.range 10).map (fun j => mkR "u" "R1" (10 + (j : ℤ)) "a" (some "Python"))
     ++ (List.range 20).map (fun j => mkR "u" "R1" (10090 + (j : ℤ)) "a" (some "Python"))
     ++ (List.range 30).map (fun j => mkR "u" "R1" (20170 + (j : ℤ)) "a" (some "Python"))⟩

/-- Bucketing counterexample input: a single record whose timestamp sits
exactly on a week boundary (the epoch instant itself). -/
def exampleDF5 : DataFrame :=
  ⟨allCols, [mkR "u1" "R1" 0 "a" (some "x")]⟩

/-- The left-closed bucketing property the specification asserts: every
filtered record lies inside the half-open week `[label, label + 7 days)`
of the bucket it is counted in. -/
def leftClosedBucketing (df : DataFrame) (skill : String) : Prop :=
  ∀ r ∈ filteredOf df skill,
    binLabel r.timestamp ≤ r.timestamp ∧
      r.timestamp < binLabel r.timestamp + weekMinutes

/-- Single-bucket frame used to witness the short-series guard. -/
def exampleDF6 : DataFrame :=
  ⟨allCols,
   [mkR "u1" "R1" 100 "a" (some "x"),
    mkR "u2" "R1" 200 "b" (some "x")]⟩

/-- Frame whose only record has a whitespace-only tag list (no usable
tags). -/
def exampleDF7 : DataFrame :=
  ⟨allCols, [mkR "u1" "A" 100 "a" (some " ; ")]⟩

theorem total_posts_exampleC1 : total_posts exampleRowsC1 "userA" = 3 := by
  decide

theorem active_days_exampleC1 : active_days exampleRowsC1 "userA" = 1 := by
  decide

theorem unique_texts_exampleC1 : unique_texts exampleRowsC1 "userA" = 1 := by
  decide

theorem posts_per_day_exampleC1 : posts_per_day exampleRowsC1 "userA" = 3 := by
  simp only [posts_per_day, total_posts_exampleC1, active_days_exampleC1]
  norm_num

theorem duplicate_text_ratio_exampleC1 :
    duplicate_text_ratio exampleRowsC1 "userA" = 1 - 1 / 3 := by
  simp only [duplicate_text_ratio, unique_texts_exampleC1, total_posts_exampleC1,
    show (max 3 1 : ℕ) = 3 from by decide]
  norm_num

/-- Claim C1: a user is flagged as a bot by the Bot Detector if and only if
posts_per_day exceeds BOT_POSTS_PER_DAY_THRESHOLD or duplicate_text_ratio
exceeds BOT_DUPLICATE_TEXT_THRESHOLD, and every non-bot user satisfies
neither condition; in particular three same-day records with text
"hi hi hi" under the default thresholds give posts_per_day = 3 and
duplicate_text_ratio = 1 - 1/3 and the user is not a bot. -/
theorem C1_bot_flag_iff :
    (∀ (rows : List Record) (cfg : BotConfig) (r : Record),
        (annotate rows cfg r).is_bot = true ↔
          (cfg.BOT_POSTS_PER_DAY_THRESHOLD < posts_per_day rows r.user_id ∨
            cfg.BOT_DUPLICATE_TEXT_THRESHOLD <
              duplicate_text_ratio rows r.user_id)) ∧
      posts_per_day exampleRowsC1 "userA" = 3 ∧
      duplicate_text_ratio exampleRowsC1 "userA" = 1 - 1 / 3 ∧
      isBot exampleRowsC1 defaultBotConfig "userA" = false := by
  refine ⟨?_, posts_per_day_exampleC1, duplicate_text_ratio_exampleC1, ?_⟩
  · intro rows cfg r
    simp [annotate, isBot, decide_eq_true_iff]
  · simp only [isBot, posts_per_day_exampleC1, duplicate_text_ratio_exampleC1,
      defaultBotConfig, Bool.or_eq_false_iff, decide_eq_false_iff_not, not_lt]
    constructor <;> norm_num

theorem missingCols_eq_nil_iff (df : DataFrame) :
    missingCols df = [] ↔ ∀ c ∈ requiredCols, c ∈ df.cols := by
  simp [missingCols, List.filter_eq_nil_iff]

/-- Claim C7: the Bot Detector fails with the schema error exactly when one
of the four required fields is absent from the frame, and succeeds on
schema grounds otherwise (the error value is returned to the caller, never
retried). -/
theorem C7_schema_error_iff :
    ∀ (df : DataFrame) (cfg : BotConfig),
      (∃ e, apply_bot_filter df cfg = Except.error e) ↔
        ∃ c ∈ requiredCols, c ∉ df.cols := by
  intro df cfg
  constructor
  · rintro ⟨e, he⟩
    by_cases hm : missingCols df = []
    · rw [apply_bot_filter, if_neg (by simp [hm])] at he
      exact absurd he (by simp)
    · rw [missingCols_eq_nil_iff] at hm
      push_neg at hm
      exact hm
  · rintro ⟨c, hc, hnc⟩
    have hm : missingCols df ≠ [] := by
      rw [ne_eq, missingCols_eq_nil_iff]
      push_neg
      exact ⟨c, hc, hnc⟩
    exact ⟨"Missing required columns", by rw [apply_bot_filter, if_pos hm]⟩

theorem map_annotate_filter (rows0 : List Record) (cfg : BotConfig) :
    ∀ l : List Record,
      ((l.map (annotate rows0 cfg)).filter (fun r => r.is_bot)).map
          (fun r => r.record.user_id) =
        (l.filter (fun r => isBot rows0 cfg r.user_id)).map Record.user_id
  | [] => rfl
  | a :: t => by
      by_cases h : isBot rows0 cfg a.user_id <;>
        simp [annotate, h, map_annotate_filter rows0 cfg t]

/-- Claim C8: the reported percent_removed equals 100 x bots_detected /
total_users rounded to two decimal places, and is 0 when total_users is 0;
total_users counts distinct user_ids and bots_detected counts distinct
flagged user_ids. -/
theorem C8_percent_removed (df : DataFrame) (cfg : BotConfig)
    (hm : missingCols df = []) :
    ∃ out, apply_bot_filter df cfg = Except.ok out ∧
      out.stats.total_users = (df.rows.map Record.user_id).dedup.length ∧
      out.stats.bots_detected =
        ((df.rows.filter (fun r => isBot df.rows cfg r.user_id)).map
          Record.user_id).dedup.length ∧
      out.stats.percent_removed =
        (if out.stats.total_users = 0 then 0
          else round2 (100 * (out.stats.bots_detected : ℚ) /
            (out.stats.total_users : ℚ))) := by
  refine ⟨_, by rw [apply_bot_filter, if_neg (by simp [hm])], rfl, ?_, ?_⟩
  · show (((df.rows.map (annotate df.rows cfg)).filter (fun r => r.is_bot)).map
        (fun r => r.record.user_id)).dedup.length = _
    rw [map_annotate_filter df.rows cfg df.rows]
  · show round2 (if (df.rows.map Record.user_id).dedup.length = 0 then 0 else _) = _
    by_cases hT : (df.rows.map Record.user_id).dedup.length = 0
    · simp [hT, round2]
    · simp [hT]

theorem map_annotate_filter_not (rows0 : List Record) (cfg : BotConfig) :
    ∀ l : List Record,
      ((l.map (annotate rows0 cfg)).filter (fun r => r.is_bot = false)).map
          (fun r => r.record) =
        l.filter (fun r => isBot rows0 cfg r.user_id = false)
  | [] => rfl
  | a :: t => by
      by_cases h : isBot rows0 cfg a.user_id
      · simpa [annotate, h] using map_annotate_filter_not rows0 cfg t
      · simpa [annotate, h] using map_annotate_filter_not rows0 cfg t

/-- Claim C9: none of the four components mutates the caller's record set —
each caller-state form returns the input frame unchanged — and the Bot
Detector's cleaned output is a freshly built filtered copy of the input
rows, not the input filtered in place. -/
theorem C9_no_mutation :
    ∀ (df : DataFrame) (cfg : BotConfig) (n : ℕ)
      (fit : List (List ℕ) → ℕ → List ℕ) (sk : String) (h : ℕ),
      (apply_bot_filter_frame df cfg).1 = df ∧
        (build_skill_graph_frame df).1 = df ∧
        (cluster_regions_frame df n fit).1 = df ∧
        (forecast_skill_frame df sk h).1 = df ∧
        (missingCols df = [] →
          ∃ out, apply_bot_filter df cfg = Except.ok out ∧
            out.cleaned.map (fun r => r.record) =
              df.rows.filter (fun r => isBot df.rows cfg r.user_id = false)) := by
  intro df cfg n fit sk h
  refine ⟨rfl, rfl, rfl, rfl, fun hm => ?_⟩
  refine ⟨_, by rw [apply_bot_filter, if_neg (by simp [hm])], ?_⟩
  show ((df.rows.map (annotate df.rows cfg)).filter
      (fun r => r.is_bot = false)).map (fun r => r.record) = _
  exact map_annotate_filter_not df.rows cfg df.rows

theorem C9_no_mutation_witness :
    (apply_bot_filter_frame exampleDF1 defaultBotConfig).1 = exampleDF1 ∧
      (build_skill_graph_frame exampleDF1).1 = exampleDF1 ∧
      (cluster_regions_frame exampleDF1 3 fitZero).1 = exampleDF1 ∧
      (forecast_skill_frame exampleDF1 "Python" 2).1 = exampleDF1 ∧
      (∃ out, apply_bot_filter exampleDF1 defaultBotConfig = Except.ok out ∧
        out.cleaned.map (fun r => r.record) =
          exampleDF1.rows.filter
            (fun r => isBot exampleDF1.rows defaultBotConfig r.user_id = false)) := by
  have h := C9_no_mutation exampleDF1 defaultBotConfig 3 fitZero "Python" 2
  exact ⟨h.1, h.2.1, h.2.2.1, h.2.2.2.1, h.2.2.2.2 (by decide)⟩

theorem expOf_eq_nil_of_unusable (df : DataFrame)
    (h : ∀ r ∈ df.rows, usableTags r = []) : expOf df = [] := by
  simp only [expOf, List.flatMap_eq_nil_iff]
  intro r hr
  simp [h r hr]

/-- Claim C10: cluster_regions reports an empty frame, a missing region or
skill_tags column, or an input all of whose records lack usable skill tags
by returning the empty list, not by raising. -/
theorem C10_cluster_guards :
    ∀ (df : DataFrame) (n : ℕ) (fit : List (List ℕ) → ℕ → List ℕ),
      (df.rows = [] → cluster_regions df n fit = []) ∧
        ("region" ∉ df.cols → cluster_regions df n fit = []) ∧
        ("skill_tags" ∉ df.cols → cluster_regions df n fit = []) ∧
        ((∀ r ∈ df.rows, usableTags r = []) → cluster_regions df n fit = []) := by
  intro df n fit
  refine ⟨fun h1 => ?_, fun h2 => ?_, fun h3 => ?_, fun h4 => ?_⟩
  · rw [cluster_regions, if_pos (Or.inl h1)]
  · rw [cluster_regions, if_pos (Or.inr (Or.inl h2))]
  · rw [cluster_regions, if_pos (Or.inr (Or.inr h3))]
  · rw [cluster_regions]
    split
    · rfl
    · rw [if_pos (expOf_eq_nil_of_unusable df h4)]

theorem C10_cluster_guards_witness :
    cluster_regions exampleDF7 3 fitZero = [] :=
  (C10_cluster_guards exampleDF7 3 fitZero).2.2.2 (by decide)

/-- Claim C6: the Trend Forecaster's guard cases — an empty trimmed target
skill or an empty filtered set yields the neutral empty result, fewer than
two weekly buckets yields trend "stable" with no forecast, horizon 0
yields no forecast points, and every emitted predicted count is
non-negative. -/
theorem C6_forecast_guards :
    ∀ (df : DataFrame) (sk : String) (h : ℕ),
      (trimStr sk = "" → forecast_skill df sk h = emptyResult) ∧
        (filteredOf df sk = [] → forecast_skill df sk h = emptyResult) ∧
        ((weeklyOf df sk).length < 2 →
          (forecast_skill df sk h).trend = "stable" ∧
            (forecast_skill df sk h).forecast = []) ∧
        (forecast_skill df sk 0).forecast = [] ∧
        (∀ p ∈ (forecast_skill df sk h).forecast, 0 ≤ p.predicted_count) := by
  intro df sk h
  refine ⟨fun h1 => ?_, fun h2 => ?_, fun h3 => ?_, ?_, ?_⟩
  · simp [forecast_skill, h1]
  · simp [forecast_skill, h2]
  · by_cases g1 : (df.rows = [] ∨ "timestamp" ∉ df.cols ∨ "skill_tags" ∉ df.cols)
    · simp [forecast_skill, g1, emptyResult]
    · by_cases g2 : trimStr sk = ""
      · simp [forecast_skill, g1, g2, emptyResult]
      · by_cases g3 : filteredOf df sk = []
        · simp [forecast_skill, g1, g2, g3, emptyResult]
        · simp [forecast_skill, g1, g2, g3, h3]
  · by_cases g1 : (df.rows = [] ∨ "timestamp" ∉ df.cols ∨ "skill_tags" ∉ df.cols)
    · simp [forecast_skill, g1, emptyResult]
    · by_cases g2 : trimStr sk = ""
      · simp [forecast_skill, g1, g2, emptyResult]
      · by_cases g3 : filteredOf df sk = []
        · simp [forecast_skill, g1, g2, g3, emptyResult]
        · by_cases g4 : (weeklyOf df sk).length < 2
          · simp [forecast_skill, g1, g2, g3, g4]
          · simp [forecast_skill, g1, g2, g3, g4]
  · intro p hp
    by_cases g1 : (df.rows = [] ∨ "timestamp" ∉ df.cols ∨ "skill_tags" ∉ df.cols)
    · simp [forecast_skill, g1, emptyResult] at hp
    · by_cases g2 : trimStr sk = ""
      · simp [forecast_skill, g1, g2, emptyResult] at hp
      · by_cases g3 : filteredOf df sk = []
        · simp [forecast_skill, g1, g2, g3, emptyResult] at hp
        · by_cases g4 : (weeklyOf df sk).length < 2
          · simp [forecast_skill, g1, g2, g3, g4] at hp
          · simp only [forecast_skill, if_neg g1, if_neg g2, if_neg g3,
              if_neg g4, List.mem_map] at hp
            obtain ⟨j, hj, rfl⟩ := hp
            exact le_max_left 0 _

theorem C6_forecast_guards_witness :
    (forecast_skill exampleDF6 "x" 5).trend = "stable" ∧
      (forecast_skill exampleDF6 "x" 5).forecast = [] :=
  (C6_forecast_guards exampleDF6 "x" 5).2.2.1 (by decide)

theorem C8_percent_removed_witness :
    ∃ out, apply_bot_filter exampleDF1 defaultBotConfig = Except.ok out ∧
      out.stats.total_users =
        (exampleDF1.rows.map Record.user_id).dedup.length ∧
      out.stats.bots_detected =
        ((exampleDF1.rows.filter
          (fun r => isBot exampleDF1.rows defaultBotConfig r.user_id)).map
          Record.user_id).dedup.length ∧
      out.stats.percent_removed =
        (if out.stats.total_users = 0 then 0
          else round2 (100 * (out.stats.bots_detected : ℚ) /
            (out.stats.total_users : ℚ))) :=
  C8_percent_removed exampleDF1 defaultBotConfig (by decide)

theorem mem_sortedDedup (l : List String) (a : String) :
    a ∈ sortedDedup l ↔ a ∈ l := by
  rw [sortedDedup, (List.perm_insertionSort strLe l.dedup).mem_iff,
    List.mem_dedup]

theorem nodup_sortedDedup (l : List String) : (sortedDedup l).Nodup :=
  (List.perm_insertionSort strLe l.dedup).nodup_iff.mpr (List.nodup_dedup l)

theorem mem_expOf (df : DataFrame) (p : String × String) :
    p ∈ expOf df ↔ ∃ r ∈ df.rows, r.region = p.1 ∧ p.2 ∈ usableTags r := by
  obtain ⟨g, t⟩ := p
  simp only [expOf, List.mem_flatMap, List.mem_map]
  constructor
  · rintro ⟨r, hr, t2, ht, heq⟩
    rw [Prod.mk.injEq] at heq
    exact ⟨r, hr, heq.1, heq.2 ▸ ht⟩
  · rintro ⟨r, hr, h1, h2⟩
    exact ⟨r, hr, t, h2, by rw [h1]⟩

theorem mem_regionsOf (df : DataFrame) (g : String) :
    g ∈ regionsOf df ↔ ∃ r ∈ df.rows, r.region = g ∧ usableTags r ≠ [] := by
  rw [regionsOf, mem_sortedDedup]
  simp only [List.mem_map]
  constructor
  · rintro ⟨p, hp, rfl⟩
    obtain ⟨r, hr, h1, h2⟩ := (mem_expOf df p).mp hp
    exact ⟨r, hr, h1, List.ne_nil_of_mem h2⟩
  · rintro ⟨r, hr, h1, h2⟩
    obtain ⟨t, ht⟩ := List.exists_mem_of_ne_nil _ h2
    exact ⟨(r.region, t), (mem_expOf df (r.region, t)).mpr ⟨r, hr, rfl, ht⟩, h1⟩

theorem regionsOf_of_rows_nil (df : DataFrame) (h : df.rows = []) :
    regionsOf df = [] := by
  simp [regionsOf, expOf, h, sortedDedup]

theorem regionsOf_of_expOf_nil (df : DataFrame) (h : expOf df = []) :
    regionsOf df = [] := by
  simp [regionsOf, h, sortedDedup]

/-- Amended claim C3: every distinct region that has at least one record
with a usable (nonempty after trimming) skill tag appears exactly once in
the clusterer's output, its cluster_id lies below k, and k is the
requested count capped at the number of such regions; the profile matrix
row of a region counts its (region, skill) occurrences, zero-filled for
skills it never used.  The sklearn labelling contract (one label per
matrix row, labels below k) is assumed for the external fit_predict. -/
theorem C3_cluster_membership (df : DataFrame) (n : ℕ)
    (fit : List (List ℕ) → ℕ → List ℕ)
    (hreg : "region" ∈ df.cols) (hsk : "skill_tags" ∈ df.cols)
    (hlen : (fit (matOf df) (kOf df n)).length = (regionsOf df).length)
    (hbound : ∀ l ∈ fit (matOf df) (kOf df n), l < kOf df n) :
    (cluster_regions df n fit).map RegionOut.region = regionsOf df ∧
      (regionsOf df).Nodup ∧
      (∀ g, g ∈ regionsOf df ↔
        ∃ r ∈ df.rows, r.region = g ∧ usableTags r ≠ []) ∧
      (∀ e ∈ cluster_regions df n fit, e.cluster_id < kOf df n) ∧
      kOf df n = min n (regionsOf df).length ∧
      matOf df = (regionsOf df).map
        (fun g => (skillsOf df).map (fun s => (expOf df).count (g, s))) := by
  have hguard : (df.rows = [] ∨ "region" ∉ df.cols ∨ "skill_tags" ∉ df.cols) ↔
      df.rows = [] := by
    simp [hreg, hsk]
  refine ⟨?_, nodup_sortedDedup _, mem_regionsOf df, ?_, rfl, rfl⟩
  · rw [cluster_regions]
    by_cases h1 : df.rows = []
    · rw [if_pos (Or.inl h1), regionsOf_of_rows_nil df h1]
      rfl
    · rw [if_neg (by rw [hguard]; exact h1)]
      by_cases h2 : expOf df = []
      · rw [if_pos h2, regionsOf_of_expOf_nil df h2]
        rfl
      · rw [if_neg h2, List.map_map]
        exact List.map_fst_zip _ _ (le_of_eq hlen.symm)
  · intro e he
    rw [cluster_regions] at he
    by_cases h1 : df.rows = []
    · rw [if_pos (Or.inl h1)] at he
      exact absurd he (List.not_mem_nil e)
    · rw [if_neg (by rw [hguard]; exact h1)] at he
      by_cases h2 : expOf df = []
      · rw [if_pos h2] at he
        exact absurd he (List.not_mem_nil e)
      · rw [if_neg h2, List.mem_map] at he
        obtain ⟨rl, hrl, rfl⟩ := he
        exact hbound rl.2 (List.of_mem_zip hrl).2

theorem C3_cluster_membership_witness :
    (cluster_regions exampleDF3 3 fitZero).map RegionOut.region =
        regionsOf exampleDF3 ∧
      (regionsOf exampleDF3).Nodup ∧
      (∀ g, g ∈ regionsOf exampleDF3 ↔
        ∃ r ∈ exampleDF3.rows, r.region = g ∧ usableTags r ≠ []) ∧
      (∀ e ∈ cluster_regions exampleDF3 3 fitZero,
        e.cluster_id < kOf exampleDF3 3) ∧
      kOf exampleDF3 3 = min 3 (regionsOf exampleDF3).length ∧
      matOf exampleDF3 = (regionsOf exampleDF3).map
        (fun g => (skillsOf exampleDF3).map
          (fun s => (expOf exampleDF3).count (g, s))) :=
  C3_cluster_membership exampleDF3 3 fitZero (by decide) (by decide)
    (by decide) (by decide)

/-- Counterexample to claim C3 as stated: in exampleDF3 the region "B"
appears in the input, but its only record has no usable skill tag, so it
is absent from the clusterer's output. -/
theorem C3_counterexample :
    ¬ (∀ g ∈ (exampleDF3.rows.map Record.region).dedup,
        ∃ e ∈ cluster_regions exampleDF3 3 fitZero, e.region = g) := by
  decide

theorem foldl_min_le_init : ∀ (l : List Int) (a : Int), l.foldl min a ≤ a
  | [], a => le_refl a
  | b :: l, a =>
      le_trans (foldl_min_le_init l (min a b)) (min_le_left a b)

theorem foldl_min_le_mem :
    ∀ (l : List Int) (a x : Int), x ∈ l → l.foldl min a ≤ x
  | b :: l, a, x, hx => by
      rcases List.mem_cons.mp hx with rfl | hx2
      · exact le_trans (foldl_min_le_init l (min a x)) (min_le_right a x)
      · exact foldl_min_le_mem l (min a b) x hx2

theorem init_le_foldl_max : ∀ (l : List Int) (a : Int), a ≤ l.foldl max a
  | [], a => le_refl a
  | b :: l, a =>
      le_trans (le_max_left a b) (init_le_foldl_max l (max a b))

theorem mem_le_foldl_max :
    ∀ (l : List Int) (a x : Int), x ∈ l → x ≤ l.foldl max a
  | b :: l, a, x, hx => by
      rcases List.mem_cons.mp hx with rfl | hx2
      · exact le_trans (le_max_right a x) (init_le_foldl_max l (max a x))
      · exact mem_le_foldl_max l (max a b) x hx2

theorem binLabel_eq (t : Int) :
    binLabel t = weekMinutes * ((t - 1).fdiv weekMinutes) := by
  simp [binLabel, binIdx]

theorem binLabel_bounds (t : Int) :
    binLabel t < t ∧ t ≤ binLabel t + weekMinutes := by
  have hconv : (t - 1).fdiv weekMinutes = (t - 1) / weekMinutes :=
    Int.fdiv_eq_ediv (t - 1) (by norm_num [weekMinutes])
  have h := Int.ediv_add_emod (t - 1) weekMinutes
  have h0 : 0 ≤ (t - 1) % weekMinutes :=
    Int.emod_nonneg (t - 1) (by norm_num [weekMinutes])
  have h1 : (t - 1) % weekMinutes < weekMinutes :=
    Int.emod_lt_of_pos (t - 1) (by norm_num [weekMinutes])
  rw [binLabel_eq, hconv]
  exact ⟨by linarith, by linarith⟩

theorem binLabel_eq_iff (t : Int) (k : Int) :
    binLabel t = weekMinutes * (k - 1) ↔ binIdx t = k := by
  rw [binLabel]
  constructor
  · intro h
    have := mul_left_cancel₀ (by norm_num [weekMinutes] : weekMinutes ≠ 0) h
    omega
  · intro h
    rw [h]

theorem weeksOf_spec (ts : List Int) (h : ts ≠ []) :
    ∃ lo hi : Int, lo ≤ hi ∧
      weeksOf ts = (List.range (hi + 1 - lo).toNat).map (fun i : ℕ => lo + (i : ℤ)) ∧
      (∀ t ∈ ts, lo ≤ binIdx t ∧ binIdx t ≤ hi) := by
  match ts with
  | [] => exact absurd rfl h
  | t0 :: ts0 =>
      refine ⟨(ts0.map binIdx).foldl min (binIdx t0),
        (ts0.map binIdx).foldl max (binIdx t0), ?_, rfl, ?_⟩
      · exact le_trans (foldl_min_le_init _ _) (init_le_foldl_max _ _)
      · intro t ht
        rcases List.mem_cons.mp ht with rfl | ht2
        · exact ⟨foldl_min_le_init _ _, init_le_foldl_max _ _⟩
        · exact ⟨foldl_min_le_mem _ _ _ (List.mem_map_of_mem binIdx ht2),
            mem_le_foldl_max _ _ _ (List.mem_map_of_mem binIdx ht2)⟩

/-- Amended claim C5: for a non-empty filtered set the weekly series has
one point per consecutive week (labels advance by exactly one week, so
weeks with zero matching records inside the span are represented, with
count equal to the number of filtered records in that week, possibly 0),
every filtered record has a bucket in the series, and each bucket is
anchored left-open/right-closed at the week boundary: the label satisfies
label < timestamp ≤ label + one week, so a record exactly on a week
boundary falls in the interval ending there, not the one starting
there. -/
theorem C5_weekly_bucketing (df : DataFrame) (sk : String)
    (hne : filteredOf df sk ≠ []) :
    weeklyOf df sk ≠ [] ∧
      (∀ i : ℕ, i + 1 < (weeklyOf df sk).length →
        ((weeklyOf df sk).get? (i + 1)).map Prod.fst =
          ((weeklyOf df sk).get? i).map (fun e => e.1 + weekMinutes)) ∧
      (∀ e ∈ weeklyOf df sk,
        e.2 = (filteredOf df sk).countP
          (fun r => binLabel r.timestamp = e.1)) ∧
      (∀ r ∈ filteredOf df sk, ∃ e ∈ weeklyOf df sk,
        e.1 = binLabel r.timestamp) ∧
      (∀ r ∈ filteredOf df sk,
        binLabel r.timestamp < r.timestamp ∧
          r.timestamp ≤ binLabel r.timestamp + weekMinutes) := by
  have hts : (filteredOf df sk).map Record.timestamp ≠ [] := by
    simpa using hne
  obtain ⟨lo, hi, hlohi, heq, hbounds⟩ :=
    weeksOf_spec ((filteredOf df sk).map Record.timestamp) hts
  have hw : weeklyOf df sk =
      (List.range (hi + 1 - lo).toNat).map (fun i : ℕ =>
        (weekMinutes * ((lo + (i : ℤ)) - 1),
          ((filteredOf df sk).map Record.timestamp).countP
            (fun t => binIdx t = lo + (i : ℤ)))) := by
    simp only [weeklyOf]
    rw [heq, List.map_map]
    rfl
  have hlen : (weeklyOf df sk).length = (hi + 1 - lo).toNat := by
    rw [hw, List.length_map, List.length_range]
  have hmemw : ∀ k : Int, lo ≤ k → k ≤ hi →
      (weekMinutes * (k - 1),
        ((filteredOf df sk).map Record.timestamp).countP
          (fun t => binIdx t = k)) ∈ weeklyOf df sk := by
    intro k hk1 hk2
    have hj : lo + (((k - lo).toNat : ℕ) : ℤ) = k := by omega
    have hjr : (k - lo).toNat ∈ List.range (hi + 1 - lo).toNat :=
      List.mem_range.mpr (by omega)
    rw [hw]
    refine List.mem_map.mpr ⟨(k - lo).toNat, hjr, ?_⟩
    simp only [hj]
  refine ⟨?_, ?_, ?_, ?_, fun r _ => binLabel_bounds r.timestamp⟩
  · rw [← List.length_pos_iff_ne_nil, hlen]
    omega
  · intro i h
    rw [hlen] at h
    rw [hw, List.get?_map, List.get?_map, List.get?_range (by omega),
      List.get?_range (by omega)]
    simp only [Option.map_some']
    congr 1
    push_cast
    ring
  · intro e he
    rw [hw, List.mem_map] at he
    obtain ⟨i, hi2, rfl⟩ := he
    rw [List.countP_map]
    refine List.countP_congr ?_
    intro r _
    simp only [Function.comp_apply, decide_eq_true_iff]
    exact (binLabel_eq_iff r.timestamp (lo + (i : ℤ))).symm
  · intro r hr
    have hb := hbounds r.timestamp (List.mem_map_of_mem Record.timestamp hr)
    refine ⟨(weekMinutes * (binIdx r.timestamp - 1), _),
      hmemw (binIdx r.timestamp) hb.1 hb.2, ?_⟩
    rw [binLabel]

theorem C5_weekly_bucketing_witness :
    weeklyOf exampleDF5 "x" ≠ [] ∧
      (∀ i : ℕ, i + 1 < (weeklyOf exampleDF5 "x").length →
        ((weeklyOf exampleDF5 "x").get? (i + 1)).map Prod.fst =
          ((weeklyOf exampleDF5 "x").get? i).map (fun e => e.1 + weekMinutes)) ∧
      (∀ e ∈ weeklyOf exampleDF5 "x",
        e.2 = (filteredOf exampleDF5 "x").countP
          (fun r => binLabel r.timestamp = e.1)) ∧
      (∀ r ∈ filteredOf exampleDF5 "x", ∃ e ∈ weeklyOf exampleDF5 "x",
        e.1 = binLabel r.timestamp) ∧
      (∀ r ∈ filteredOf exampleDF5 "x",
        binLabel r.timestamp < r.timestamp ∧
          r.timestamp ≤ binLabel r.timestamp + weekMinutes) :=
  C5_weekly_bucketing exampleDF5 "x" (by decide)

/-- Counterexample to claim C5 as stated: the single record of exampleDF5
sits exactly on a week boundary (timestamp 0); the series counts it in
the bucket labelled -10080, i.e. the week ENDING at the record's
timestamp, so the buckets are not left-closed intervals starting at the
label. -/
theorem C5_counterexample :
    ¬ leftClosedBucketing exampleDF5 "x" ∧
      weeklyOf exampleDF5 "x" = [(-10080, 1)] := by
  refine ⟨fun h => ?_, by decide⟩
  have hb := h (mkR "u1" "R1" 0 "a" (some "x")) (by decide)
  exact absurd hb (by decide)

/-- Claim C4: past the guards, with at least two weekly buckets, the trend
is "rising" exactly when the least-squares slope exceeds
max(0.1, mean x 0.02), "declining" exactly when it is below the negated
threshold, "stable" otherwise, and the forecast emits, for i = 1..horizon,
max(0, round1(slope x (last_index + i) + intercept)) one week after the
previous point; weekly counts [10, 20, 30] give slope 10, intercept 10,
mean 20, threshold 0.4, trend "rising" and a one-week-ahead prediction of
40.0. -/
theorem C4_trend_forecast :
    (∀ (df : DataFrame) (sk : String) (h : ℕ),
      ¬(df.rows = [] ∨ "timestamp" ∉ df.cols ∨ "skill_tags" ∉ df.cols) →
      ¬trimStr sk = "" →
      ¬filteredOf df sk = [] →
      2 ≤ (weeklyOf df sk).length →
      (((forecast_skill df sk h).trend = "rising" ↔
          thrOf df sk < slopeOf df sk) ∧
        ((forecast_skill df sk h).trend = "declining" ↔
          slopeOf df sk < -thrOf df sk) ∧
        ((forecast_skill df sk h).trend = "stable" ↔
          (¬thrOf df sk < slopeOf df sk ∧ ¬slopeOf df sk < -thrOf df sk)) ∧
        (forecast_skill df sk h).forecast = (List.range h).map (fun j : ℕ =>
          ForePoint.mk (lastLabelOf df sk + weekMinutes * ((j : ℤ) + 1))
            (max 0 (round1 (slopeOf df sk *
              (((weeklyOf df sk).length - 1 + (j + 1) : ℕ) : ℚ) +
                interceptOf df sk)))))) ∧
      linfit [10, 20, 30] = (10, 10) ∧
      weeklyOf exampleDF4 "Python" = [(0, 10), (10080, 20), (20160, 30)] ∧
      meanOf exampleDF4 "Python" = 20 ∧
      thrOf exampleDF4 "Python" = 2 / 5 ∧
      (forecast_skill exampleDF4 "Python" 1).trend = "rising" ∧
      (forecast_skill exampleDF4 "Python" 1).forecast =
        [ForePoint.mk 30240 40] := by
  have hmain : ∀ (df : DataFrame) (sk : String) (h : ℕ),
      ¬(df.rows = [] ∨ "timestamp" ∉ df.cols ∨ "skill_tags" ∉ df.cols) →
      ¬trimStr sk = "" →
      ¬filteredOf df sk = [] →
      2 ≤ (weeklyOf df sk).length →
      (((forecast_skill df sk h).trend = "rising" ↔
          thrOf df sk < slopeOf df sk) ∧
        ((forecast_skill df sk h).trend = "declining" ↔
          slopeOf df sk < -thrOf df sk) ∧
        ((forecast_skill df sk h).trend = "stable" ↔
          (¬thrOf df sk < slopeOf df sk ∧ ¬slopeOf df sk < -thrOf df sk)) ∧
        (forecast_skill df sk h).forecast = (List.range h).map (fun j : ℕ =>
          ForePoint.mk (lastLabelOf df sk + weekMinutes * ((j : ℤ) + 1))
            (max 0 (round1 (slopeOf df sk *
              (((weeklyOf df sk).length - 1 + (j + 1) : ℕ) : ℚ) +
                interceptOf df sk))))) := by
    intro df sk h g1 g2 g3 h2
    have g4 : ¬((weeklyOf df sk).length < 2) := by omega
    simp only [forecast_skill, if_neg g1, if_neg g2, if_neg g3, if_neg g4]
    refine ⟨?_, ?_, ?_, by trivial⟩
    · by_cases c1 : thrOf df sk < slopeOf df sk
      · rw [if_pos c1]
        exact iff_of_true rfl c1
      · by_cases c2 : slopeOf df sk < -thrOf df sk
        · rw [if_neg c1, if_pos c2]
          exact iff_of_false (by decide) c1
        · rw [if_neg c1, if_neg c2]
          exact iff_of_false (by decide) c1
    · have h10 : (1 / 10 : ℚ) ≤ thrOf df sk := by
        rw [thrOf]
        exact le_max_left _ _
      by_cases c1 : thrOf df sk < slopeOf df sk
      · rw [if_pos c1]
        exact iff_of_false (by decide) (fun hc => by linarith)
      · by_cases c2 : slopeOf df sk < -thrOf df sk
        · rw [if_neg c1, if_pos c2]
          exact iff_of_true rfl c2
        · rw [if_neg c1, if_neg c2]
          exact iff_of_false (by decide) c2
    · by_cases c1 : thrOf df sk < slopeOf df sk
      · rw [if_pos c1]
        exact iff_of_false (by decide) (fun hc => hc.1 c1)
      · by_cases c2 : slopeOf df sk < -thrOf df sk
        · rw [if_neg c1, if_pos c2]
          exact iff_of_false (by decide) (fun hc => hc.2 c2)
        · rw [if_neg c1, if_neg c2]
          exact iff_of_true rfl ⟨c1, c2⟩
  have hlinfit : linfit [10, 20, 30] = (10, 10) := by
    norm_num [linfit, List.range_succ]
  have hweekly : weeklyOf exampleDF4 "Python" =
      [(0, 10), (10080, 20), (20160, 30)] := by decide
  have hcounts : countsOf exampleDF4 "Python" = [10, 20, 30] := by
    rw [countsOf, hweekly]
    norm_num
  have hslope : slopeOf exampleDF4 "Python" = 10 := by
    rw [slopeOf, hcounts, hlinfit]
  have hic : interceptOf exampleDF4 "Python" = 10 := by
    rw [interceptOf, hcounts, hlinfit]
  have hmean : meanOf exampleDF4 "Python" = 20 := by
    rw [meanOf, hcounts]
    norm_num
  have hthr : thrOf exampleDF4 "Python" = 2 / 5 := by
    rw [thrOf, hmean]
    norm_num
  have hinst := hmain exampleDF4 "Python" 1 (by decide) (by decide)
    (by decide) (by decide)
  have hlast : lastLabelOf exampleDF4 "Python" = 20160 := by
    rw [lastLabelOf, hweekly]
    rfl
  refine ⟨hmain, hlinfit, hweekly, hmean, hthr, ?_, ?_⟩
  · exact hinst.1.mpr (by rw [hthr, hslope]; norm_num)
  · rw [hinst.2.2.2]
    simp only [hlast, hslope, hic, hweekly,
      show List.range 1 = [0] from rfl, List.map_cons,
      List.map_nil, List.length_cons, List.length_nil]
    norm_num [round1, round_eq, weekMinutes]

theorem char_toNat_inj {a b : Char} (h : a.toNat = b.toNat) : a = b :=
  Char.ext (UInt32.ext h)

theorem string_data_inj {a b : String} (h : a.data = b.data) : a = b := by
  cases a
  cases b
  exact congrArg String.mk h

theorem lexLt_irrefl : ∀ cs : List Char, lexLt cs cs = false
  | [] => rfl
  | c :: cs => by simp [lexLt, lexLt_irrefl cs]

theorem lexLt_asymm :
    ∀ (a b : List Char), lexLt a b = true → lexLt b a = false
  | [], [], h => by simp [lexLt] at h
  | [], _ :: _, _ => rfl
  | _ :: _, [], h => by simp [lexLt] at h
  | a :: as, b :: bs, h => by
      simp only [lexLt, Bool.or_eq_true, Bool.and_eq_true,
        decide_eq_true_eq] at h
      simp only [lexLt, Bool.or_eq_false_iff, Bool.and_eq_false_iff,
        decide_eq_false_iff_not]
      rcases h with hlt | ⟨heq, hrec⟩
      · exact ⟨by omega, Or.inl (by omega)⟩
      · exact ⟨by omega, Or.inr (lexLt_asymm as bs hrec)⟩

theorem lexLt_trans :
    ∀ (a b c : List Char),
      lexLt a b = true → lexLt b c = true → lexLt a c = true
  | _, [], _, h1, _ => by simp [lexLt] at h1
  | _, _ :: _, [], _, h2 => by simp [lexLt] at h2
  | [], _ :: _, _ :: _, _, _ => rfl
  | a :: as, b :: bs, c :: cs, h1, h2 => by
      simp only [lexLt, Bool.or_eq_true, Bool.and_eq_true,
        decide_eq_true_eq] at h1 h2 ⊢
      rcases h1 with hlt1 | ⟨heq1, hrec1⟩
      · rcases h2 with hlt2 | ⟨heq2, hrec2⟩
        · exact Or.inl (by omega)
        · exact Or.inl (by omega)
      · rcases h2 with hlt2 | ⟨heq2, hrec2⟩
        · exact Or.inl (by omega)
        · exact Or.inr ⟨by omega, lexLt_trans as bs cs hrec1 hrec2⟩

theorem lexLt_total_eq :
    ∀ (a b : List Char), lexLt a b = false → lexLt b a = false → a = b
  | [], [], _, _ => rfl
  | [], _ :: _, h1, _ => by simp [lexLt] at h1
  | _ :: _, [], _, h2 => by simp [lexLt] at h2
  | a :: as, b :: bs, h1, h2 => by
      simp only [lexLt, Bool.or_eq_false_iff, Bool.and_eq_false_iff,
        decide_eq_false_iff_not] at h1 h2
      have hab : a = b := char_toNat_inj (by omega)
      rcases h1.2 with hne | hrec1
      · exact absurd (by rw [hab]) hne
      · rcases h2.2 with hne | hrec2
        · exact absurd (by rw [hab]) hne
        · rw [hab, lexLt_total_eq as bs hrec1 hrec2]

instance : IsTotal String strLe :=
  ⟨fun a b => by
    cases hc : lexLt b.data a.data with
    | false => exact Or.inl hc
    | true => exact Or.inr (lexLt_asymm _ _ hc)⟩

instance : IsTrans String strLe :=
  ⟨fun a b c hab hbc => by
    by_contra hca0
    have hca : lexLt c.data a.data = true := by
      revert hca0
      cases h : lexLt c.data a.data <;> simp [strLe, h]
    cases hbc2 : lexLt b.data c.data with
    | true =>
        have := lexLt_trans b.data c.data a.data hbc2 hca
        rw [strLe] at hab
        rw [hab] at this
        exact absurd this (by simp)
    | false =>
        have heq := lexLt_total_eq b.data c.data hbc2 hbc
        rw [← heq] at hca
        rw [strLe] at hab
        rw [hab] at hca
        exact absurd hca (by simp)⟩

theorem strLt_irrefl (a : String) : ¬ strLt a a := by
  simp [strLt, lexLt_irrefl]

theorem strLt_asymm {a b : String} (h : strLt a b) : ¬ strLt b a := by
  rw [strLt] at h ⊢
  rw [lexLt_asymm _ _ h]
  simp

theorem strLt_ne {a b : String} (h : strLt a b) : a ≠ b := by
  rintro rfl
  exact strLt_irrefl a h

theorem strLt_of_strLe_ne {a b : String} (h1 : strLe a b) (h2 : a ≠ b) :
    strLt a b := by
  rw [strLe] at h1
  rw [strLt]
  cases hc : lexLt a.data b.data with
  | true => rfl
  | false => exact absurd (string_data_inj (lexLt_total_eq _ _ hc h1)) h2

theorem pairwise_strLt_tagSet (s : String) : (tagSet s).Pairwise strLt := by
  have hsorted : (tagSet s).Pairwise strLe :=
    List.sorted_insertionSort strLe (splitTags s).dedup
  have hnodup : (tagSet s).Nodup :=
    (List.perm_insertionSort strLe (splitTags s).dedup).nodup_iff.mpr
      (List.nodup_dedup (splitTags s))
  exact (hsorted.and hnodup).imp (fun h => strLt_of_strLe_ne h.1 h.2)

theorem pairwise_strLt_tagsOfR (r : Record) : (tagsOfR r).Pairwise strLt := by
  rw [tagsOfR]
  cases r.skill_tags with
  | none => exact List.Pairwise.nil
  | some s => exact pairwise_strLt_tagSet s

theorem mem_pairsOf :
    ∀ {l : List String}, l.Pairwise strLt → ∀ p : String × String,
      (p ∈ pairsOf l ↔ (p.1 ∈ l ∧ p.2 ∈ l ∧ strLt p.1 p.2))
  | [], _, p => by simp [pairsOf]
  | a :: t, hp, p => by
      have ha := List.pairwise_cons.mp hp
      obtain ⟨p1, p2⟩ := p
      simp only [pairsOf, List.mem_append, List.mem_map, List.mem_cons,
        Prod.mk.injEq]
      constructor
      · rintro (⟨b, hb, rfl, rfl⟩ | hrec)
        · exact ⟨Or.inl rfl, Or.inr hb, ha.1 b hb⟩
        · obtain ⟨h1, h2, h3⟩ := (mem_pairsOf ha.2 (p1, p2)).mp hrec
          exact ⟨Or.inr h1, Or.inr h2, h3⟩
      · rintro ⟨hp1 | hp1, hp2 | hp2, hlt⟩
        · exact absurd hlt (by rw [hp1, hp2]; exact strLt_irrefl a)
        · exact Or.inl ⟨p2, hp2, hp1.symm, rfl⟩
        · subst hp2
          exact absurd (ha.1 p1 hp1) (strLt_asymm hlt)
        · exact Or.inr ((mem_pairsOf ha.2 (p1, p2)).mpr ⟨hp1, hp2, hlt⟩)

theorem nodup_pairsOf :
    ∀ {l : List String}, l.Pairwise strLt → (pairsOf l).Nodup
  | [], _ => List.Pairwise.nil
  | a :: t, hp => by
      have ha := List.pairwise_cons.mp hp
      rw [pairsOf]
      refine List.Nodup.append ?_ (nodup_pairsOf ha.2) ?_
      · refine List.Nodup.map ?_ (ha.2.imp strLt_ne)
        intro b1 b2 h
        injection h
      · rw [List.disjoint_left]
        rintro q hq hq2
        obtain ⟨b, hb, rfl⟩ := List.mem_map.mp hq
        have := ((mem_pairsOf ha.2 (a, b)).mp hq2).1
        exact absurd (ha.1 a this) (strLt_irrefl a)

theorem nodup_recordPairs (r : Record) : (recordPairs r).Nodup :=
  nodup_pairsOf (pairwise_strLt_tagsOfR r)

theorem count_eq_ite_of_nodup :
    ∀ {l : List (String × String)}, l.Nodup → ∀ p : String × String,
      l.count p = if p ∈ l then 1 else 0
  | [], _, p => by simp
  | a :: t, h, p => by
      rw [List.count_cons]
      obtain ⟨hna, hnd⟩ := List.nodup_cons.mp h
      by_cases hap : a = p
      · subst hap
        rw [List.count_eq_zero_of_not_mem hna]
        simp
      · rw [count_eq_ite_of_nodup hnd p]
        have hpa : ¬ p = a := fun hq => hap hq.symm
        simp [hap, hpa]

theorem cntOf_bumpPair :
    ∀ (c : List ((String × String) × ℕ)) (q p : String × String),
      cntOf (bumpPair c q) p = cntOf c p + (if p = q then 1 else 0)
  | [], q, p => by
      simp only [bumpPair, cntOf]
      by_cases h : p = q
      · subst h
        simp
      · rw [if_neg (fun hq => h hq.symm), if_neg h]
  | (q0, n0) :: rest, q, p => by
      simp only [bumpPair]
      by_cases h1 : q0 = q
      · subst h1
        rw [if_pos rfl]
        simp only [cntOf]
        by_cases h2 : q0 = p
        · subst h2
          simp
        · rw [if_neg h2, if_neg h2, if_neg (fun hq : p = q0 => h2 hq.symm),
            Nat.add_zero]
      · rw [if_neg h1]
        simp only [cntOf]
        by_cases h2 : q0 = p
        · subst h2
          rw [if_pos rfl, if_pos rfl, if_neg (fun hq : q0 = q => h1 hq),
            Nat.add_zero]
        · rw [if_neg h2, if_neg h2, cntOf_bumpPair rest q p]

theorem keys_bumpPair :
    ∀ (c : List ((String × String) × ℕ)) (q : String × String),
      (bumpPair c q).map Prod.fst =
        if q ∈ c.map Prod.fst then c.map Prod.fst
        else c.map Prod.fst ++ [q]
  | [], q => by simp [bumpPair]
  | (q0, n0) :: rest, q => by
      by_cases h1 : q0 = q
      · subst h1
        simp [bumpPair]
      · have hne : ¬ q = q0 := fun hp => h1 hp.symm
        by_cases h2 : q ∈ rest.map Prod.fst
        · simp [bumpPair, h1, keys_bumpPair rest q, h2, hne]
        · simp [bumpPair, h1, keys_bumpPair rest q, h2, hne]

theorem nodup_keys_bumpPair {c : List ((String × String) × ℕ)}
    (q : String × String) (h : (c.map Prod.fst).Nodup) :
    ((bumpPair c q).map Prod.fst).Nodup := by
  rw [keys_bumpPair]
  by_cases hm : q ∈ c.map Prod.fst
  · rw [if_pos hm]
    exact h
  · rw [if_neg hm]
    refine List.Nodup.append h (List.nodup_singleton q) ?_
    rw [List.disjoint_left]
    intro a ha ha2
    rw [List.mem_singleton] at ha2
    exact hm (ha2 ▸ ha)

theorem mem_bumpPair_imp {P : String × String → Prop} :
    ∀ {c : List ((String × String) × ℕ)} {q : String × String},
      (∀ e ∈ c, P e.1) → P q → ∀ e ∈ bumpPair c q, P e.1
  | [], q, _, hq, e, he => by
      rw [bumpPair, List.mem_singleton] at he
      subst he
      exact hq
  | (q0, n0) :: rest, q, hc, hq, e, he => by
      rw [bumpPair] at he
      by_cases h1 : q0 = q
      · rw [if_pos h1] at he
        rcases List.mem_cons.mp he with rfl | he2
        · exact hc (q0, n0) (List.mem_cons_self _ _)
        · exact hc e (List.mem_cons_of_mem _ he2)
      · rw [if_neg h1] at he
        rcases List.mem_cons.mp he with rfl | he2
        · exact hc (q0, n0) (List.mem_cons_self _ _)
        · exact mem_bumpPair_imp (fun x hx => hc x (List.mem_cons_of_mem _ hx))
            hq e he2

theorem pos_bumpPair :
    ∀ {c : List ((String × String) × ℕ)} {q : String × String},
      (∀ e ∈ c, 1 ≤ e.2) → ∀ e ∈ bumpPair c q, 1 ≤ e.2
  | [], q, _, e, he => by
      rw [bumpPair, List.mem_singleton] at he
      subst he
      exact le_refl 1
  | (q0, n0) :: rest, q, hc, e, he => by
      rw [bumpPair] at he
      by_cases h1 : q0 = q
      · rw [if_pos h1] at he
        rcases List.mem_cons.mp he with rfl | he2
        · exact Nat.le_add_left 1 n0
        · exact hc e (List.mem_cons_of_mem _ he2)
      · rw [if_neg h1] at he
        rcases List.mem_cons.mp he with rfl | he2
        · exact hc (q0, n0) (List.mem_cons_self _ _)
        · exact pos_bumpPair (fun x hx => hc x (List.mem_cons_of_mem _ hx)) e he2

theorem cntOf_of_mem :
    ∀ {c : List ((String × String) × ℕ)},
      (c.map Prod.fst).Nodup → ∀ {p : String × String} {n : ℕ},
        (p, n) ∈ c → cntOf c p = n
  | [], _, p, n, h => absurd h (List.not_mem_nil (p, n))
  | (q0, n0) :: rest, hnd, p, n, h => by
      rcases List.mem_cons.mp h with heq | hmem
      · injection heq with hp hn
        subst hp
        subst hn
        simp [cntOf]
      · have hne : q0 ≠ p := by
          intro hqp
          subst hqp
          have : q0 ∈ rest.map Prod.fst :=
            List.mem_map.mpr ⟨(q0, n), hmem, rfl⟩
          exact (List.nodup_cons.mp (by simpa using hnd)).1 this
        rw [cntOf, if_neg hne]
        exact cntOf_of_mem (List.nodup_cons.mp (by simpa using hnd)).2 hmem

theorem cntOf_foldl_bumpPair :
    ∀ (ps : List (String × String)) (c : List ((String × String) × ℕ))
      (p : String × String),
      cntOf (ps.foldl bumpPair c) p = cntOf c p + ps.count p
  | [], c, p => by simp
  | q :: ps, c, p => by
      rw [List.foldl_cons, cntOf_foldl_bumpPair ps (bumpPair c q) p,
        cntOf_bumpPair, List.count_cons]
      by_cases h : p = q
      · simp [h]
        omega
      · have hq : ¬ q = p := fun hq => h hq.symm
        simp [h, hq]

theorem keys_nodup_foldl_bumpPair :
    ∀ (ps : List (String × String)) (c : List ((String × String) × ℕ)),
      (c.map Prod.fst).Nodup → ((ps.foldl bumpPair c).map Prod.fst).Nodup
  | [], c, h => h
  | q :: ps, c, h =>
      keys_nodup_foldl_bumpPair ps (bumpPair c q) (nodup_keys_bumpPair q h)

theorem mem_foldl_bumpPair_imp {P : String × String → Prop} :
    ∀ (ps : List (String × String)) (c : List ((String × String) × ℕ)),
      (∀ q ∈ ps, P q) → (∀ e ∈ c, P e.1) →
      ∀ e ∈ ps.foldl bumpPair c, P e.1
  | [], c, _, hc => hc
  | q :: ps, c, hps, hc =>
      mem_foldl_bumpPair_imp ps (bumpPair c q)
        (fun x hx => hps x (List.mem_cons_of_mem _ hx))
        (mem_bumpPair_imp hc (hps q (List.mem_cons_self _ _)))

theorem pos_foldl_bumpPair :
    ∀ (ps : List (String × String)) (c : List ((String × String) × ℕ)),
      (∀ e ∈ c, 1 ≤ e.2) → ∀ e ∈ ps.foldl bumpPair c, 1 ≤ e.2
  | [], c, hc => hc
  | q :: ps, c, hc =>
      pos_foldl_bumpPair ps (bumpPair c q) (pos_bumpPair hc)

theorem cntOf_pairCountsFrom :
    ∀ (rows : List Record) (c : List ((String × String) × ℕ))
      (p : String × String),
      cntOf (pairCountsFrom c rows) p =
        cntOf c p + rows.countP (fun r => decide (p ∈ recordPairs r))
  | [], c, p => by simp [pairCountsFrom]
  | r :: rows, c, p => by
      show cntOf (pairCountsFrom ((recordPairs r).foldl bumpPair c) rows) p = _
      rw [cntOf_pairCountsFrom rows ((recordPairs r).foldl bumpPair c) p,
        cntOf_foldl_bumpPair, count_eq_ite_of_nodup (nodup_recordPairs r),
        List.countP_cons]
      by_cases hm : p ∈ recordPairs r
      · simp [hm]
        omega
      · simp [hm]

theorem keys_nodup_pairCountsFrom :
    ∀ (rows : List Record) (c : List ((String × String) × ℕ)),
      (c.map Prod.fst).Nodup → ((pairCountsFrom c rows).map Prod.fst).Nodup
  | [], _, h => h
  | r :: rows, c, h =>
      keys_nodup_pairCountsFrom rows _
        (keys_nodup_foldl_bumpPair (recordPairs r) c h)

theorem mem_pairCountsFrom_imp {P : String × String → Prop} :
    ∀ (rows : List Record) (c : List ((String × String) × ℕ)),
      (∀ r ∈ rows, ∀ q ∈ recordPairs r, P q) → (∀ e ∈ c, P e.1) →
      ∀ e ∈ pairCountsFrom c rows, P e.1
  | [], _, _, hc => hc
  | r :: rows, c, hrows, hc =>
      mem_pairCountsFrom_imp rows _
        (fun x hx => hrows x (List.mem_cons_of_mem _ hx))
        (mem_foldl_bumpPair_imp (recordPairs r) c
          (hrows r (List.mem_cons_self _ _)) hc)

theorem pos_pairCountsFrom :
    ∀ (rows : List Record) (c : List ((String × String) × ℕ)),
      (∀ e ∈ c, 1 ≤ e.2) → ∀ e ∈ pairCountsFrom c rows, 1 ≤ e.2
  | [], _, hc => hc
  | r :: rows, c, hc =>
      pos_pairCountsFrom rows _ (pos_foldl_bumpPair (recordPairs r) c hc)

theorem mem_recordPairs (r : Record) (p : String × String) :
    p ∈ recordPairs r ↔
      (p.1 ∈ tagsOfR r ∧ p.2 ∈ tagsOfR r ∧ strLt p.1 p.2) := by
  rw [recordPairs]
  exact mem_pairsOf (pairwise_strLt_tagsOfR r) p

/-- Claim C2: every edge of the skill graph joins two distinct skills in
canonical (strictly sorted) order, its weight is exactly the number of
records in whose trimmed deduplicated tag list both endpoint skills
appear, hence at least 1; the two records tagged "Python;SQL" and
"SQL;Python" produce the single edge (Python, SQL) with weight 2, and
both endpoints have degree 1. -/
theorem C2_graph_edges :
    (∀ (df : DataFrame) (a b : String) (w : ℕ),
        ((a, b), w) ∈ (build_skill_graph df).edges →
          a ≠ b ∧ strLt a b ∧ w = coCount df.rows a b ∧ 1 ≤ w) ∧
      (build_skill_graph exampleDF2).edges = [(("Python", "SQL"), 2)] ∧
      degreeIn (build_skill_graph exampleDF2).edges "Python" = 1 ∧
      degreeIn (build_skill_graph exampleDF2).edges "SQL" = 1 := by
  refine ⟨?_, by decide, by decide, by decide⟩
  intro df a b w hmem
  have hedges : (build_skill_graph df).edges = pair_counts df.rows := rfl
  rw [hedges] at hmem
  have hlt : strLt a b :=
    @mem_pairCountsFrom_imp (fun q => strLt q.1 q.2) df.rows []
      (fun r _ q hq => ((mem_recordPairs r q).mp hq).2.2) (by simp)
      ((a, b), w) hmem
  have hpos : 1 ≤ w :=
    pos_pairCountsFrom df.rows [] (by simp) ((a, b), w) hmem
  have hnd : ((pair_counts df.rows).map Prod.fst).Nodup :=
    keys_nodup_pairCountsFrom df.rows [] (by simp)
  have hcnt : cntOf (pair_counts df.rows) (a, b) = w := cntOf_of_mem hnd hmem
  have hcount : cntOf (pair_counts df.rows) (a, b) =
      df.rows.countP (fun r => decide ((a, b) ∈ recordPairs r)) := by
    have h0 := cntOf_pairCountsFrom df.rows [] (a, b)
    simpa [pair_counts, cntOf] using h0
  have hco : df.rows.countP (fun r => decide ((a, b) ∈ recordPairs r)) =
      coCount df.rows a b := by
    rw [coCount]
    refine List.countP_congr ?_
    intro r _
    simp only [decide_eq_true_eq, Bool.and_eq_true]
    rw [mem_recordPairs]
    constructor
    · rintro ⟨h1, h2, _⟩
      exact ⟨h1, h2⟩
    · rintro ⟨h1, h2⟩
      exact ⟨h1, h2, hlt⟩
  exact ⟨strLt_ne hlt, hlt, by rw [← hcnt, hcount, hco], hpos⟩

theorem C2_graph_edges_witness :
    "Python" ≠ "SQL" ∧ strLt "Python" "SQL" ∧
      2 = coCount exampleDF2.rows "Python" "SQL" ∧ 1 ≤ 2 :=
  C2_graph_edges.1 exampleDF2 "Python" "SQL" 2 (by decide)

theorem C4_trend_forecast_witness :
    ((forecast_skill exampleDF4 "Python" 1).trend = "rising" ↔
        thrOf exampleDF4 "Python" < slopeOf exampleDF4 "Python") ∧
      ((forecast_skill exampleDF4 "Python" 1).trend = "declining" ↔
        slopeOf exampleDF4 "Python" < -thrOf exampleDF4 "Python") ∧
      ((forecast_skill exampleDF4 "Python" 1).trend = "stable" ↔
        (¬thrOf exampleDF4 "Python" < slopeOf exampleDF4 "Python" ∧
          ¬slopeOf exampleDF4 "Python" < -thrOf exampleDF4 "Python")) ∧
      (forecast_skill exampleDF4 "Python" 1).forecast =
        (List.range 1).map (fun j : ℕ =>
          ForePoint.mk
            (lastLabelOf exampleDF4 "Python" + weekMinutes * ((j : ℤ) + 1))
            (max 0 (round1 (slopeOf exampleDF4 "Python" *
              (((weeklyOf exampleDF4 "Python").length - 1 + (j + 1) : ℕ) : ℚ) +
                interceptOf exampleDF4 "Python")))) :=
  C4_trend_forecast.1 exampleDF4 "Python" 1 (by decide) (by decide)
    (by decide) (by decide)

end SkillGenome
